import Mathlib

/-!
# CodexMonitor daemon — verification of the workspace/worktree registry

A shallow embedding of `src/src-tauri/src/bin/codex_monitor_daemon.rs` and
`src/src-tauri/src/types.rs`.  The in-memory `HashMap`s guarding workspaces and
sessions are modelled as association lists; external effects (session spawning,
git subprocess calls, filesystem probes, persistence) are modelled by an
environment of oracles, and every operation additionally reports which
subprocesses it killed, which sessions it spawned and which `git worktree
remove` invocations it attempted, so that side-effect claims are statable.
-/

/-! ## Data model (types.rs) -/

/-- The `WorkspaceKind` from types.rs: `Main` or `Worktree` (default `Main`). -/
inductive WorkspaceKind
  | main
  | worktree
deriving DecidableEq, Repr

/-- The `WorkspaceKind::is_worktree`. -/
def WorkspaceKind.is_worktree : WorkspaceKind → Bool
  | .worktree => true
  | .main => false

/-- The `WorktreeInfo` from types.rs. -/
structure WorktreeInfo where
  branch : String
deriving DecidableEq, Repr

/-- The `WorkspaceSettings` from types.rs; `sort_order` is an optional `u32`. -/
structure WorkspaceSettings where
  sidebar_collapsed : Bool := false
  sort_order : Option Nat := none
deriving DecidableEq, Repr

/-- The `WorkspaceEntry` from types.rs. -/
structure WorkspaceEntry where
  id : String
  name : String
  path : String
  codex_bin : Option String := none
  kind : WorkspaceKind := .main
  parent_id : Option String := none
  worktree : Option WorktreeInfo := none
  settings : WorkspaceSettings := {}
deriving DecidableEq, Repr

/-- The `WorkspaceInfo` from types.rs: an entry joined with live-connection status. -/
structure WorkspaceInfo where
  id : String
  name : String
  path : String
  connected : Bool
  codex_bin : Option String := none
  kind : WorkspaceKind := .main
  parent_id : Option String := none
  worktree : Option WorktreeInfo := none
  settings : WorkspaceSettings := {}
deriving DecidableEq, Repr

/-- The `WorkspaceInfo` built from an entry, as in `list_workspaces` and the
various `Ok(WorkspaceInfo { .. })` constructions of the daemon. -/
def WorkspaceEntry.toInfo (e : WorkspaceEntry) (connected : Bool) : WorkspaceInfo :=
  { id := e.id, name := e.name, path := e.path, connected := connected,
    codex_bin := e.codex_bin, kind := e.kind, parent_id := e.parent_id,
    worktree := e.worktree, settings := e.settings }

/-! ## Name sanitization (`sanitize_worktree_name`) -/

/-- The character class kept verbatim by `sanitize_worktree_name`:
`ch.is_ascii_alphanumeric() || matches!(ch, '-' | '_' | '.')`. -/
def allowed_char (c : Char) : Bool :=
  (('a' ≤ c && c ≤ 'z') || ('A' ≤ c && c ≤ 'Z') || ('0' ≤ c && c ≤ '9'))
    || c == '-' || c == '_' || c == '.'

/-- The per-character replacement loop of `sanitize_worktree_name`. -/
def sanitize_chars (l : List Char) : List Char :=
  l.map (fun c => if allowed_char c then c else '-')

/-- The `str::trim_matches('-')`: drop every leading and trailing `'-'`. -/
def trim_dashes (l : List Char) : List Char :=
  ((l.dropWhile (fun c => c == '-')).reverse.dropWhile (fun c => c == '-')).reverse

/-- The `sanitize_worktree_name` from codex_monitor_daemon.rs. -/
def sanitize_worktree_name (branch : String) : String :=
  let trimmed := trim_dashes (sanitize_chars branch.data)
  if trimmed.isEmpty then "worktree" else String.mk trimmed

/-! ## Collision-avoiding path allocation (`unique_worktree_path`) -/

/-- The `unique_worktree_path` from codex_monitor_daemon.rs.  The filesystem is
abstracted as the predicate `pathExists`; `PathBuf::join` becomes `"/"`
concatenation.  The Rust loop `for index in 2..1000` tries the suffixes
`2, …, 999` in order and, crucially, leaves `candidate` at the base path
when every suffix is taken. -/
def unique_worktree_path (pathExists : String → Bool) (base_dir name : String) : String :=
  let candidate := base_dir ++ "/" ++ name
  if !(pathExists candidate) then candidate
  else
    match (List.range' 2 998).find?
        (fun index => !(pathExists (base_dir ++ "/" ++ name ++ "-" ++ toString index))) with
    | some index => base_dir ++ "/" ++ name ++ "-" ++ toString index
    | none => candidate

/-- The candidates `unique_worktree_path` enumerates, in order. -/
def worktree_path_candidates (base_dir name : String) : List String :=
  (base_dir ++ "/" ++ name)
    :: (List.range' 2 998).map (fun index => base_dir ++ "/" ++ name ++ "-" ++ toString index)

/-! ## Sandbox/approval mapping in `send_user_message` -/

/-- The `sandboxPolicy` JSON shapes built by `send_user_message`. -/
inductive SandboxPolicy
  | dangerFullAccess
  | readOnly
  | workspaceWrite (writableRoots : List String) (networkAccess : Bool)
deriving DecidableEq, Repr

/-- The `match access_mode.as_str()` of `send_user_message` (the Rust match on
a string is an equality chain). -/
def sandbox_policy_for (access_mode : String) (workspace_path : String) : SandboxPolicy :=
  if access_mode = "full-access" then .dangerFullAccess
  else if access_mode = "read-only" then .readOnly
  else .workspaceWrite [workspace_path] true

/-- The `approval_policy` computation of `send_user_message`. -/
def approval_policy_for (access_mode : String) : String :=
  if access_mode = "full-access" then "never" else "on-request"

/-- The sandbox- and approval-policy pair `send_user_message` places in the
`turn/start` parameters, including the `unwrap_or_else(|| "current")`
defaulting of an absent access mode. -/
def send_user_message_policies (access_mode : Option String) (workspace_path : String) :
    SandboxPolicy × String :=
  let am := access_mode.getD "current"
  (sandbox_policy_for am workspace_path, approval_policy_for am)

/-! ## The connection protocol state machine (`handle_client`) -/

/-- A shallow model of `serde_json::Value`. -/
inductive JValue
  | null
  | bool (b : Bool)
  | num (n : Int)
  | str (s : String)
  | arr (items : List JValue)
  | obj (fields : List (String × JValue))

/-- The `serde_json::Map::get` on an object's field list. -/
def jget (k : String) : List (String × JValue) → Option JValue
  | [] => none
  | (k', v) :: rest => if k' = k then some v else jget k rest

/-- The `Value::as_str`. -/
def JValue.as_str : JValue → Option String
  | .str s => some s
  | _ => none

/-- The `parse_auth_token` from codex_monitor_daemon.rs: a bare string token or an
object with a string `"token"` field. -/
def parse_auth_token : JValue → Option String
  | .str v => some v
  | .obj fields => (jget "token" fields).bind JValue.as_str
  | _ => none

/-- A decoded inbound request envelope `{id?, method, params?}`. -/
structure RpcRequest where
  id : Option Nat
  method : String
  params : JValue

/-- An outbound response; notifications are not modelled here. -/
inductive Reply
  | result (id : Nat) (v : JValue)
  | error (id : Nat) (message : String)

/-- The `build_error_response`: a reply is produced only when the request had an id. -/
def build_error_response (id : Option Nat) (message : String) : Option Reply :=
  id.map (fun i => Reply.error i message)

/-- The `build_result_response`. -/
def build_result_response (id : Option Nat) (v : JValue) : Option Reply :=
  id.map (fun i => Reply.result i v)

/-- The method names of the `handle_rpc_request` routing table, in source order. -/
def rpc_methods : List String :=
  ["ping", "list_workspaces", "add_workspace", "add_worktree", "connect_workspace",
   "remove_workspace", "remove_worktree", "update_workspace_settings",
   "update_workspace_codex_bin", "list_workspace_files", "get_app_settings",
   "update_app_settings", "start_thread", "resume_thread", "list_threads",
   "archive_thread", "send_user_message", "turn_interrupt", "start_review",
   "model_list", "account_rate_limits", "skills_list", "respond_to_server_request",
   "get_git_status", "get_git_diffs", "get_git_log", "get_git_remote",
   "get_github_issues", "list_git_branches", "checkout_git_branch",
   "create_git_branch"]

/-- The `handle_rpc_request`, with the routed operations abstracted by `opResult`:
a known method is dispatched, an unknown one is answered with
`unknown method: <name>`.  Note the table has no `"auth"` arm. -/
def handle_rpc_request (opResult : String → JValue → Except String JValue)
    (method : String) (params : JValue) : Except String JValue :=
  if method ∈ rpc_methods then opResult method params
  else .error ("unknown method: " ++ method)

/-- The per-connection authentication state of `handle_client`. -/
inductive ConnState
  | unauthenticated
  | authenticated
deriving DecidableEq, Repr

/-- The `let mut authenticated = config.token.is_none();` — a connection starts
authenticated exactly when the daemon has no configured token. -/
def initial_conn_state (token : Option String) : ConnState :=
  if token.isNone then .authenticated else .unauthenticated

/-- One iteration of the `handle_client` read loop on a decoded request:
the auth gate followed by dispatch to `handle_rpc_request`. -/
def conn_step (token : Option String) (opResult : String → JValue → Except String JValue)
    (st : ConnState) (req : RpcRequest) : ConnState × Option Reply :=
  match st with
  | .unauthenticated =>
    if req.method ≠ "auth" then
      (.unauthenticated, build_error_response req.id "unauthorized")
    else
      let expected := token.getD ""
      let provided := (parse_auth_token req.params).getD ""
      if expected ≠ provided then
        (.unauthenticated, build_error_response req.id "invalid token")
      else
        (.authenticated, build_result_response req.id (.obj [("ok", .bool true)]))
  | .authenticated =>
    match handle_rpc_request opResult req.method req.params with
    | .ok v => (.authenticated, build_result_response req.id v)
    | .error e => (.authenticated, build_error_response req.id e)

/-! ## Association-list model of the two `HashMap`s -/

/-- The `HashMap::get` (first match). -/
def alLookup (k : String) : List (String × α) → Option α
  | [] => none
  | (k', v) :: rest => if k' = k then some v else alLookup k rest

/-- The `HashMap::insert`: replace the binding when the key is present, append
otherwise. -/
def alInsert (k : String) (v : α) : List (String × α) → List (String × α)
  | [] => [(k, v)]
  | (k', v') :: rest => if k' = k then (k, v) :: rest else (k', v') :: alInsert k v rest

/-- The `HashMap::remove` (the removed value is not needed by the model). -/
def alErase (k : String) : List (String × α) → List (String × α)
  | [] => []
  | (k', v) :: rest => if k' = k then alErase k rest else (k', v) :: alErase k rest

/-- The `HashMap::values`, in the model's fixed iteration order. -/
def alValues (l : List (String × α)) : List α :=
  l.map (fun kv => kv.2)

/-! ## DaemonState and its operations -/

/-- The mutable daemon state the claims are about: the workspace map and the
session map.  A live session is represented by the `WorkspaceEntry` snapshot
the `WorkspaceSession` was spawned with. -/
structure DState where
  workspaces : List (String × WorkspaceEntry)
  sessions : List (String × WorkspaceEntry)
deriving DecidableEq, Repr

/-- The oracles for the daemon's external effects: session spawning, the
`write_workspaces` persistence call, worktree-directory creation, `.gitignore`
patching, filesystem existence probes and `git worktree add`/`remove`. -/
structure DaemonEnv where
  spawnOk : String → Bool
  writeOk : Bool
  mkdirOk : Bool
  ignoreOk : Bool
  pathExists : String → Bool
  gitWorktreeAddOk : Bool
  gitRemoveOk : String → Bool

instance [DecidableEq ε] [DecidableEq α] : DecidableEq (Except ε α)
  | .ok a, .ok b => decidable_of_iff (a = b) (by simp)
  | .ok _, .error _ => isFalse (by intro h; cases h)
  | .error _, .ok _ => isFalse (by intro h; cases h)
  | .error a, .error b => decidable_of_iff (a = b) (by simp)

/-- An operation's outcome: the resulting state, the ids whose subprocess was
killed, the ids a session was spawned for, the worktree paths on which
`git worktree remove --force` was invoked, and the returned value or error. -/
structure OpOut (α : Type) where
  state : DState
  killed : List String := []
  spawned : List String := []
  gitRemoved : List String := []
  result : Except String α
deriving DecidableEq, Repr

/-- The `PathBuf::file_name` of the workspace path, defaulted to `"Workspace"`
(`add_workspace`'s display-name derivation). -/
def derive_workspace_name (path : String) : String :=
  ((((path.splitOn "/").filter (fun s => s ≠ "")).getLast?).getD "Workspace")

/-- The `DaemonState::add_workspace`.  The fresh UUID is the explicit `newId`
argument.  On spawn failure nothing is mutated; on persistence failure the
inserted entry stays in the workspace map but no session is registered,
exactly as the `?` placement in the source dictates. -/
def add_workspace (env : DaemonEnv) (s : DState) (newId path : String)
    (codex_bin : Option String) : OpOut WorkspaceInfo :=
  let name := derive_workspace_name path
  let entry : WorkspaceEntry :=
    { id := newId, name := name, path := path, codex_bin := codex_bin,
      kind := .main, parent_id := none, worktree := none, settings := {} }
  if env.spawnOk newId then
    let ws1 := alInsert newId entry s.workspaces
    if env.writeOk then
      { state := { workspaces := ws1, sessions := alInsert newId entry s.sessions },
        spawned := [newId], result := .ok (entry.toInfo true) }
    else
      { state := { s with workspaces := ws1 }, spawned := [newId],
        result := .error "failed to write workspaces" }
  else
    { state := s, result := .error "failed to spawn session" }

/-- The `DaemonState::add_worktree`.  Guard order follows the source: empty
branch, parent lookup, parent-kind conflict, directory creation, ignore-file
patch, path allocation, `git worktree add`, session spawn, insert, persist. -/
def add_worktree (env : DaemonEnv) (s : DState) (newId parent_id branch : String) :
    OpOut WorkspaceInfo :=
  let branch := branch.trim
  if branch.isEmpty then
    { state := s, result := .error "Branch name is required." }
  else
    match alLookup parent_id s.workspaces with
    | none => { state := s, result := .error "parent workspace not found" }
    | some parent_entry =>
      if parent_entry.kind.is_worktree then
        { state := s, result := .error "Cannot create a worktree from another worktree." }
      else if !env.mkdirOk then
        { state := s, result := .error "Failed to create worktree directory" }
      else if !env.ignoreOk then
        { state := s, result := .error "Failed to update .gitignore" }
      else
        let worktree_root := parent_entry.path ++ "/.codex-worktrees"
        let safe_name := sanitize_worktree_name branch
        let worktree_path := unique_worktree_path env.pathExists worktree_root safe_name
        if !env.gitWorktreeAddOk then
          { state := s, result := .error "git worktree add failed" }
        else
          let entry : WorkspaceEntry :=
            { id := newId, name := branch, path := worktree_path,
              codex_bin := parent_entry.codex_bin, kind := .worktree,
              parent_id := some parent_entry.id,
              worktree := some { branch := branch }, settings := {} }
          if env.spawnOk newId then
            let ws1 := alInsert newId entry s.workspaces
            if env.writeOk then
              { state := { workspaces := ws1, sessions := alInsert newId entry s.sessions },
                spawned := [newId], result := .ok (entry.toInfo true) }
            else
              { state := { s with workspaces := ws1 }, spawned := [newId],
                result := .error "failed to write workspaces" }
          else
            { state := s, result := .error "failed to spawn session" }

/-- The `self.sessions.lock().await.remove(&id)` followed by `child.kill()`:
returns the new state and the kill trace. -/
def killSession (s : DState) (id : String) : DState × List String :=
  match alLookup id s.sessions with
  | some _ => ({ s with sessions := alErase id s.sessions }, [id])
  | none => (s, [])

/-- The outcome of `remove_workspace`'s child-teardown loop. -/
structure ChildTeardown where
  state : DState
  killed : List String
  gitRemoved : List String
  err : Option String
deriving Repr

/-- The `for child in &child_worktrees` loop of `remove_workspace`: kill the
child's subprocess, then force-remove its git worktree when the directory
exists; the `?` on that git call aborts the loop at the first failure. -/
def remove_children (env : DaemonEnv) : List WorkspaceEntry → DState → ChildTeardown
  | [], s => { state := s, killed := [], gitRemoved := [], err := none }
  | child :: rest, s =>
    let s1 := (killSession s child.id).1
    let k1 := (killSession s child.id).2
    if env.pathExists child.path then
      if env.gitRemoveOk child.path then
        let t := remove_children env rest s1
        { state := t.state, killed := k1 ++ t.killed,
          gitRemoved := child.path :: t.gitRemoved, err := t.err }
      else
        { state := s1, killed := k1, gitRemoved := [child.path],
          err := some ("failed to remove worktree " ++ child.path) }
    else
      let t := remove_children env rest s1
      { state := t.state, killed := k1 ++ t.killed, gitRemoved := t.gitRemoved,
        err := t.err }

/-- The `DaemonState::remove_workspace`: guards, cascading child teardown, prune
(best effort, ignored), own-session kill, removal of the target and all
children from the map, persist. -/
def remove_workspace (env : DaemonEnv) (s : DState) (id : String) : OpOut Unit :=
  match alLookup id s.workspaces with
  | none => { state := s, result := .error "workspace not found" }
  | some entry =>
    if entry.kind.is_worktree then
      { state := s, result := .error "Use remove_worktree for worktree agents." }
    else
      let children := (alValues s.workspaces).filter (fun w => w.parent_id = some id)
      let t := remove_children env children s
      match t.err with
      | some e =>
        { state := t.state, killed := t.killed, gitRemoved := t.gitRemoved,
          result := .error e }
      | none =>
        let s2 := (killSession t.state id).1
        let k2 := (killSession t.state id).2
        let ws2 := children.foldl (fun acc c => alErase c.id acc) (alErase id s2.workspaces)
        { state := { workspaces := ws2, sessions := s2.sessions },
          killed := t.killed ++ k2, gitRemoved := t.gitRemoved,
          result := if env.writeOk then .ok () else .error "failed to write workspaces" }

/-- The `DaemonState::remove_worktree`: entry lookup, kind check, parent
resolution (all before any mutation), then subprocess kill, force-remove,
prune (ignored), map removal and persist. -/
def remove_worktree (env : DaemonEnv) (s : DState) (id : String) : OpOut Unit :=
  match alLookup id s.workspaces with
  | none => { state := s, result := .error "workspace not found" }
  | some entry =>
    if !entry.kind.is_worktree then
      { state := s, result := .error "Not a worktree workspace." }
    else
      match entry.parent_id with
      | none => { state := s, result := .error "worktree parent not found" }
      | some pid =>
        match alLookup pid s.workspaces with
        | none => { state := s, result := .error "worktree parent not found" }
        | some _parent =>
          let s1 := (killSession s entry.id).1
          let k1 := (killSession s entry.id).2
          let attempted := if env.pathExists entry.path then [entry.path] else []
          if env.pathExists entry.path && !(env.gitRemoveOk entry.path) then
            { state := s1, killed := k1, gitRemoved := attempted,
              result := .error ("failed to remove worktree " ++ entry.path) }
          else
            { state := { workspaces := alErase entry.id s1.workspaces,
                         sessions := s1.sessions },
              killed := k1, gitRemoved := attempted,
              result := if env.writeOk then .ok () else .error "failed to write workspaces" }

/-- The `DaemonState::connect_workspace`: an already-live session short-circuits
to `Ok(())` without touching anything; otherwise the entry is looked up and a
session spawned and inserted. -/
def connect_workspace (env : DaemonEnv) (s : DState) (id : String) : OpOut Unit :=
  if (alLookup id s.sessions).isSome then
    { state := s, result := .ok () }
  else
    match alLookup id s.workspaces with
    | none => { state := s, result := .error "workspace not found" }
    | some entry =>
      if env.spawnOk id then
        { state := { s with sessions := alInsert id entry s.sessions },
          spawned := [id], result := .ok () }
      else
        { state := s, result := .error "failed to spawn session" }

/-- The `DaemonState::update_workspace_settings`: in-place mutation under the
lock, then persist; on persistence failure the mutation has already happened. -/
def update_workspace_settings (env : DaemonEnv) (s : DState) (id : String)
    (settings : WorkspaceSettings) : OpOut WorkspaceInfo :=
  match alLookup id s.workspaces with
  | none => { state := s, result := .error "workspace not found" }
  | some entry =>
    let entry2 := { entry with settings := settings }
    let ws2 := alInsert id entry2 s.workspaces
    let connected := (alLookup id s.sessions).isSome
    { state := { s with workspaces := ws2 },
      result :=
        if env.writeOk then .ok (entry2.toInfo connected)
        else .error "failed to write workspaces" }

/-- The `DaemonState::update_workspace_codex_bin`, structurally identical to
`update_workspace_settings`. -/
def update_workspace_codex_bin (env : DaemonEnv) (s : DState) (id : String)
    (codex_bin : Option String) : OpOut WorkspaceInfo :=
  match alLookup id s.workspaces with
  | none => { state := s, result := .error "workspace not found" }
  | some entry =>
    let entry2 := { entry with codex_bin := codex_bin }
    let ws2 := alInsert id entry2 s.workspaces
    let connected := (alLookup id s.sessions).isSome
    { state := { s with workspaces := ws2 },
      result :=
        if env.writeOk then .ok (entry2.toInfo connected)
        else .error "failed to write workspaces" }

/-! ## `list_workspaces` and `sort_workspaces` -/

/-- The effective sort key: `settings.sort_order.unwrap_or(u32::MAX)`. -/
def effective_sort_order (w : WorkspaceInfo) : Nat :=
  w.settings.sort_order.getD 4294967295

/-- Lexicographic `≤` on character lists: Rust's `Ord` for `String` (byte
comparison of UTF-8 agrees with scalar-value lexicographic comparison). -/
def chars_le : List Char → List Char → Bool
  | [], _ => true
  | _ :: _, [] => false
  | a :: as, b :: bs => if a = b then chars_le as bs else decide (a < b)

/-- The `a.cmp(&b) != Greater` for Rust strings. -/
def string_le (a b : String) : Bool :=
  chars_le a.data b.data

/-- The `cmp(a, b) != Greater` for the comparator of `sort_workspaces`: orders
first when they differ, names otherwise. -/
def ws_le (a b : WorkspaceInfo) : Bool :=
  if effective_sort_order a = effective_sort_order b then string_le a.name b.name
  else effective_sort_order a < effective_sort_order b

/-- The `sort_workspaces`: a stable sort by the comparator above (Rust's
`sort_by`), realized by insertion sort. -/
def sort_workspaces (l : List WorkspaceInfo) : List WorkspaceInfo :=
  List.insertionSort (fun a b => ws_le a b = true) l

/-- The `DaemonState::list_workspaces`: join every entry with its live-connection
status, then sort. -/
def list_workspaces (s : DState) : List WorkspaceInfo :=
  sort_workspaces
    ((alValues s.workspaces).map (fun e => e.toInfo ((alLookup e.id s.sessions).isSome)))

/-! ## The registry invariant -/

/-- Whether an entry's `parent_id` is present and resolves to a registered
`Main` entry. -/
def parentResolvesMain (ws : List (String × WorkspaceEntry)) (e : WorkspaceEntry) : Bool :=
  match e.parent_id with
  | none => false
  | some pid =>
    match alLookup pid ws with
    | none => false
    | some p => decide (p.kind = .main)

/-- The spec's invariant for one entry:
`kind = Worktree ⇔ parent_id present and resolves to an existing Main entry`. -/
def entryInvariant (ws : List (String × WorkspaceEntry)) (e : WorkspaceEntry) : Bool :=
  e.kind.is_worktree == parentResolvesMain ws e

/-- The spec's invariant over the whole workspace map. -/
def registryInvariant (ws : List (String × WorkspaceEntry)) : Bool :=
  ws.all (fun kv => entryInvariant ws kv.2)

/-- The inductive well-formedness the operations actually maintain, from which
the spec's biconditional follows: keys are unique and coincide with the
entries' ids, `Main` entries carry no `parent_id`, and every `Worktree`
entry's `parent_id` resolves to a `Main` entry. -/
structure RegistryWF (ws : List (String × WorkspaceEntry)) : Prop where
  nodup : (ws.map Prod.fst).Nodup
  key_eq : ∀ kv ∈ ws, kv.1 = kv.2.id
  main_no_parent : ∀ kv ∈ ws, kv.2.kind = .main → kv.2.parent_id = none
  worktree_parent : ∀ kv ∈ ws, kv.2.kind = .worktree →
    ∃ pid p, kv.2.parent_id = some pid ∧ alLookup pid ws = some p ∧ p.kind = .main

/-! ## Association-list lemmas -/

theorem alLookup_alInsert (k k' : String) (v : α) (l : List (String × α)) :
    alLookup k' (alInsert k v l) = if k' = k then some v else alLookup k' l := by
  induction l with
  | nil =>
    by_cases h : k' = k
    · subst h; simp [alInsert, alLookup]
    · simp [alInsert, alLookup, h, Ne.symm h]
  | cons kv rest ih =>
    obtain ⟨k'', v''⟩ := kv
    by_cases h : k'' = k
    · subst h
      by_cases h2 : k' = k''
      · subst h2; simp [alInsert, alLookup]
      · simp [alInsert, alLookup, h2, Ne.symm h2]
    · by_cases h2 : k'' = k'
      · subst h2
        simp [alInsert, alLookup, h]
      · simp [alInsert, alLookup, h, h2, ih]

theorem alInsert_of_lookup_none (k : String) (v : α) (l : List (String × α))
    (h : alLookup k l = none) : alInsert k v l = l ++ [(k, v)] := by
  induction l with
  | nil => simp [alInsert]
  | cons kv rest ih =>
    obtain ⟨k', v'⟩ := kv
    by_cases h2 : k' = k
    · simp [alLookup, h2] at h
    · simp only [alLookup, if_neg h2] at h
      simp [alInsert, h2, ih h]

theorem alLookup_some_mem {k : String} {v : α} {l : List (String × α)}
    (h : alLookup k l = some v) : (k, v) ∈ l := by
  induction l with
  | nil => simp [alLookup] at h
  | cons kv rest ih =>
    obtain ⟨k', v'⟩ := kv
    by_cases h2 : k' = k
    · subst h2
      simp [alLookup] at h
      simp [h]
    · simp only [alLookup, if_neg h2] at h
      exact List.mem_cons_of_mem _ (ih h)

theorem alLookup_none_of_not_mem_keys {k : String} {l : List (String × α)}
    (h : k ∉ l.map Prod.fst) : alLookup k l = none := by
  induction l with
  | nil => rfl
  | cons kv rest ih =>
    obtain ⟨k', v'⟩ := kv
    simp only [List.map_cons, List.mem_cons] at h
    push_neg at h
    simp [alLookup, Ne.symm h.1, ih h.2]

theorem lookup_none_not_mem_keys {k : String} {l : List (String × α)}
    (h : alLookup k l = none) : k ∉ l.map Prod.fst := by
  induction l with
  | nil => simp
  | cons kv rest ih =>
    obtain ⟨k', v'⟩ := kv
    by_cases h2 : k' = k
    · simp [alLookup, h2] at h
    · simp only [alLookup, if_neg h2] at h
      simp [ih h, Ne.symm h2]

theorem alLookup_of_mem_of_nodup {k : String} {v : α} {l : List (String × α)}
    (hn : (l.map Prod.fst).Nodup) (hm : (k, v) ∈ l) : alLookup k l = some v := by
  induction l with
  | nil => simp at hm
  | cons kv rest ih =>
    obtain ⟨k', v'⟩ := kv
    simp only [List.map_cons, List.nodup_cons] at hn
    rcases List.mem_cons.1 hm with h | h
    · rw [Prod.mk.injEq] at h
      obtain ⟨rfl, rfl⟩ := h
      simp [alLookup]
    · have hk : k' ≠ k := by
        intro hh
        subst hh
        exact hn.1 (List.mem_map.2 ⟨(k', v), h, rfl⟩)
      simp [alLookup, hk, ih hn.2 h]

theorem alLookup_filter_key {k : String} {l : List (String × α)} (f : String → Bool) :
    alLookup k (l.filter (fun kv => f kv.1)) = if f k then alLookup k l else none := by
  induction l with
  | nil => simp [alLookup]
  | cons kv rest ih =>
    obtain ⟨k', v'⟩ := kv
    by_cases h2 : k' = k
    · subst h2
      by_cases hf : f k' <;> simp [List.filter, alLookup, hf, ih]
    · by_cases hf : f k' <;> simp [List.filter, alLookup, hf, h2, ih]

theorem alErase_eq_filter (k : String) (l : List (String × α)) :
    alErase k l = l.filter (fun kv => decide (kv.1 ≠ k)) := by
  induction l with
  | nil => rfl
  | cons kv rest ih =>
    obtain ⟨k', v'⟩ := kv
    by_cases h : k' = k <;> simp [alErase, List.filter_cons, h, ih]

theorem alLookup_alErase (k k' : String) (l : List (String × α)) :
    alLookup k' (alErase k l) = if k' = k then none else alLookup k' l := by
  induction l with
  | nil => by_cases h : k' = k <;> simp [alErase, alLookup, h]
  | cons kv rest ih =>
    obtain ⟨k'', v''⟩ := kv
    by_cases h : k'' = k
    · subst h
      by_cases h2 : k' = k''
      · subst h2
        simp [alErase, alLookup, ih]
      · simp [alErase, alLookup, h2, Ne.symm h2, ih]
    · by_cases h2 : k'' = k'
      · subst h2
        have hne : ¬ k'' = k := h
        simp [alErase, alLookup, hne, Ne.symm hne]
      · simp [alErase, alLookup, h, h2, ih]

theorem mem_alErase {kv : String × α} {k : String} {l : List (String × α)} :
    kv ∈ alErase k l ↔ kv ∈ l ∧ kv.1 ≠ k := by
  rw [alErase_eq_filter]
  simp

theorem mem_alValues {v : α} {l : List (String × α)} :
    v ∈ alValues l ↔ ∃ kv ∈ l, kv.2 = v := by
  unfold alValues
  simp

/-- The `remove_workspace`'s removal loop as a single filter. -/
theorem foldl_alErase_eq_filter (cs : List WorkspaceEntry) (l : List (String × WorkspaceEntry)) :
    cs.foldl (fun acc c => alErase c.id acc) l
      = l.filter (fun kv => cs.all (fun c => decide (kv.1 ≠ c.id))) := by
  induction cs generalizing l with
  | nil => simp
  | cons c rest ih =>
    rw [List.foldl_cons, ih, alErase_eq_filter, List.filter_filter]
    congr 1
    funext kv
    simp [Bool.and_comm]

theorem alLookup_append_of_some {k : String} {v : α} {l1 l2 : List (String × α)}
    (h : alLookup k l1 = some v) : alLookup k (l1 ++ l2) = some v := by
  induction l1 with
  | nil => simp [alLookup] at h
  | cons kv rest ih =>
    obtain ⟨k', v'⟩ := kv
    rw [List.cons_append]
    by_cases h2 : k' = k
    · simp only [alLookup, if_pos h2] at h ⊢
      exact h
    · simp only [alLookup, if_neg h2] at h ⊢
      exact ih h

theorem alInsert_keys_of_some {k : String} {v v' : α} {l : List (String × α)}
    (h : alLookup k l = some v) : (alInsert k v' l).map Prod.fst = l.map Prod.fst := by
  induction l with
  | nil => simp [alLookup] at h
  | cons kv rest ih =>
    obtain ⟨k'', v''⟩ := kv
    by_cases h2 : k'' = k
    · subst h2
      simp [alInsert]
    · simp only [alLookup, if_neg h2] at h
      simp [alInsert, h2, ih h]

theorem mem_alInsert_of_lookup_some {k : String} {v v' : α} {l : List (String × α)}
    (hn : (l.map Prod.fst).Nodup) (hl : alLookup k l = some v) (kv : String × α) :
    kv ∈ alInsert k v' l ↔ kv = (k, v') ∨ (kv ∈ l ∧ kv.1 ≠ k) := by
  induction l with
  | nil => simp [alLookup] at hl
  | cons hd rest ih =>
    obtain ⟨k0, w⟩ := hd
    simp only [List.map_cons, List.nodup_cons] at hn
    have hrest : ∀ kv' ∈ rest, (kv' : String × α).1 ≠ k0 := by
      intro kv' hkv' heq
      exact hn.1 (List.mem_map.2 ⟨kv', hkv', heq⟩)
    by_cases h2 : k0 = k
    · subst h2
      have hins : alInsert k0 v' ((k0, w) :: rest) = (k0, v') :: rest := by
        simp [alInsert]
      rw [hins]
      simp only [List.mem_cons]
      constructor
      · intro h
        rcases h with h | hr
        · exact Or.inl h
        · exact Or.inr ⟨Or.inr hr, hrest _ hr⟩
      · intro h
        rcases h with h | ⟨hm, hne⟩
        · exact Or.inl h
        · rcases hm with h | hr
          · exact absurd (congrArg Prod.fst h) hne
          · exact Or.inr hr
    · simp only [alLookup, if_neg h2] at hl
      simp only [alInsert, if_neg h2, List.mem_cons, ih hn.2 hl]
      constructor
      · intro h
        rcases h with h | h | hr
        · refine Or.inr ⟨Or.inl h, ?_⟩
          rw [h]
          exact h2
        · exact Or.inl h
        · exact Or.inr ⟨Or.inr hr.1, hr.2⟩
      · intro h
        rcases h with h | ⟨hm, hne⟩
        · exact Or.inr (Or.inl h)
        · rcases hm with h | hr
          · exact Or.inl h
          · exact Or.inr (Or.inr ⟨hr, hne⟩)

theorem nodup_keys_of_sublist {l1 l2 : List (String × α)} (h : l1.Sublist l2)
    (hn : (l2.map Prod.fst).Nodup) : (l1.map Prod.fst).Nodup :=
  hn.sublist (h.map Prod.fst)

theorem kind_main_of_not_worktree {k : WorkspaceKind} (h : k.is_worktree = false) :
    k = .main := by
  cases k
  · rfl
  · simp [WorkspaceKind.is_worktree] at h

theorem kind_worktree_of_is_worktree {k : WorkspaceKind} (h : k.is_worktree = true) :
    k = .worktree := by
  cases k
  · simp [WorkspaceKind.is_worktree] at h
  · rfl

/-! ## Preservation of registry well-formedness -/

theorem registryInvariant_of_wf {ws : List (String × WorkspaceEntry)} (h : RegistryWF ws) :
    registryInvariant ws = true := by
  unfold registryInvariant
  rw [List.all_eq_true]
  intro kv hkv
  unfold entryInvariant
  cases hk : kv.2.kind with
  | main =>
    have hp := h.main_no_parent kv hkv hk
    simp [WorkspaceKind.is_worktree, parentResolvesMain, hp, hk]
  | worktree =>
    obtain ⟨pid, p, hpid, hlook, hpkind⟩ := h.worktree_parent kv hkv hk
    simp [WorkspaceKind.is_worktree, parentResolvesMain, hpid, hlook, hpkind, hk]

theorem wf_insert_main {ws : List (String × WorkspaceEntry)} (h : RegistryWF ws)
    {k : String} {e : WorkspaceEntry} (hfresh : alLookup k ws = none) (hid : e.id = k)
    (hkind : e.kind = .main) (hpar : e.parent_id = none) :
    RegistryWF (alInsert k e ws) := by
  rw [alInsert_of_lookup_none _ _ _ hfresh]
  refine ⟨?_, ?_, ?_, ?_⟩
  · rw [List.map_append, List.nodup_append]
    refine ⟨h.nodup, List.nodup_singleton _, ?_⟩
    intro a ha hb
    simp only [List.map_cons, List.map_nil, List.mem_singleton] at hb
    subst hb
    exact lookup_none_not_mem_keys hfresh ha
  · intro kv hkv
    rcases List.mem_append.1 hkv with hm | hm
    · exact h.key_eq kv hm
    · simp only [List.mem_singleton] at hm
      rw [hm, hid]
  · intro kv hkv hkind'
    rcases List.mem_append.1 hkv with hm | hm
    · exact h.main_no_parent kv hm hkind'
    · simp only [List.mem_singleton] at hm
      rw [hm]
      exact hpar
  · intro kv hkv hkind'
    rcases List.mem_append.1 hkv with hm | hm
    · obtain ⟨pid, p, hpid, hlook, hpkind⟩ := h.worktree_parent kv hm hkind'
      exact ⟨pid, p, hpid, alLookup_append_of_some hlook, hpkind⟩
    · simp only [List.mem_singleton] at hm
      rw [hm] at hkind'
      rw [hkind] at hkind'
      cases hkind'

theorem wf_insert_worktree {ws : List (String × WorkspaceEntry)} (h : RegistryWF ws)
    {k pid : String} {e p : WorkspaceEntry} (hfresh : alLookup k ws = none) (hid : e.id = k)
    (hkind : e.kind = .worktree) (hpar : e.parent_id = some pid)
    (hp : alLookup pid ws = some p) (hpk : p.kind = .main) :
    RegistryWF (alInsert k e ws) := by
  rw [alInsert_of_lookup_none _ _ _ hfresh]
  refine ⟨?_, ?_, ?_, ?_⟩
  · rw [List.map_append, List.nodup_append]
    refine ⟨h.nodup, List.nodup_singleton _, ?_⟩
    intro a ha hb
    simp only [List.map_cons, List.map_nil, List.mem_singleton] at hb
    subst hb
    exact lookup_none_not_mem_keys hfresh ha
  · intro kv hkv
    rcases List.mem_append.1 hkv with hm | hm
    · exact h.key_eq kv hm
    · simp only [List.mem_singleton] at hm
      rw [hm, hid]
  · intro kv hkv hkind'
    rcases List.mem_append.1 hkv with hm | hm
    · exact h.main_no_parent kv hm hkind'
    · simp only [List.mem_singleton] at hm
      rw [hm] at hkind'
      rw [hkind] at hkind'
      cases hkind'
  · intro kv hkv hkind'
    rcases List.mem_append.1 hkv with hm | hm
    · obtain ⟨pid', p', hpid', hlook', hpkind'⟩ := h.worktree_parent kv hm hkind'
      exact ⟨pid', p', hpid', alLookup_append_of_some hlook', hpkind'⟩
    · simp only [List.mem_singleton] at hm
      rw [hm]
      exact ⟨pid, p, hpar, alLookup_append_of_some hp, hpk⟩

theorem wf_update {ws : List (String × WorkspaceEntry)} (h : RegistryWF ws)
    {k : String} {e e2 : WorkspaceEntry} (hl : alLookup k ws = some e) (hid : e2.id = e.id)
    (hkind : e2.kind = e.kind) (hpar : e2.parent_id = e.parent_id) :
    RegistryWF (alInsert k e2 ws) := by
  have hmem := @mem_alInsert_of_lookup_some _ _ _ e2 _ h.nodup hl
  have hke : k = e.id := h.key_eq (k, e) (alLookup_some_mem hl)
  refine ⟨?_, ?_, ?_, ?_⟩
  · rw [alInsert_keys_of_some hl]
    exact h.nodup
  · intro kv hkv
    rcases (hmem kv).1 hkv with hm | hm
    · rw [hm, hid]
      exact hke
    · exact h.key_eq kv hm.1
  · intro kv hkv hkind'
    rcases (hmem kv).1 hkv with hm | hm
    · rw [hm] at hkind' ⊢
      rw [hpar]
      rw [hkind] at hkind'
      exact h.main_no_parent (k, e) (alLookup_some_mem hl) hkind'
    · exact h.main_no_parent kv hm.1 hkind'
  · intro kv hkv hkind'
    have resolve : ∀ pid p, alLookup pid ws = some p → p.kind = .main →
        ∃ p', alLookup pid (alInsert k e2 ws) = some p' ∧ p'.kind = .main := by
      intro pid p hlook hpkind
      rw [alLookup_alInsert]
      by_cases hpk2 : pid = k
      · subst hpk2
        rw [hl] at hlook
        obtain rfl : p = e := by injection hlook.symm
        refine ⟨e2, if_pos rfl, ?_⟩
        rw [hkind]
        exact hpkind
      · exact ⟨p, by rw [if_neg hpk2]; exact hlook, hpkind⟩
    rcases (hmem kv).1 hkv with hm | hm
    · rw [hm] at hkind' ⊢
      rw [hkind] at hkind'
      obtain ⟨pid, p, hpid, hlook, hpkind⟩ :=
        h.worktree_parent (k, e) (alLookup_some_mem hl) hkind'
      obtain ⟨p', hl', hk'⟩ := resolve pid p hlook hpkind
      exact ⟨pid, p', by rw [hpar]; exact hpid, hl', hk'⟩
    · obtain ⟨pid, p, hpid, hlook, hpkind⟩ := h.worktree_parent kv hm.1 hkind'
      obtain ⟨p', hl', hk'⟩ := resolve pid p hlook hpkind
      exact ⟨pid, p', hpid, hl', hk'⟩

/-! ### Removal shapes -/

theorem wf_erase_worktree {ws : List (String × WorkspaceEntry)} (h : RegistryWF ws)
    {k : String} {e : WorkspaceEntry} (hl : alLookup k ws = some e)
    (hkind : e.kind = .worktree) : RegistryWF (alErase k ws) := by
  refine ⟨?_, ?_, ?_, ?_⟩
  · refine nodup_keys_of_sublist ?_ h.nodup
    rw [alErase_eq_filter]
    exact List.filter_sublist _
  · intro kv hkv
    exact h.key_eq kv (mem_alErase.1 hkv).1
  · intro kv hkv
    exact h.main_no_parent kv (mem_alErase.1 hkv).1
  · intro kv hkv hkind'
    obtain ⟨hm, hne⟩ := mem_alErase.1 hkv
    obtain ⟨pid, p, hpid, hlook, hpkind⟩ := h.worktree_parent kv hm hkind'
    have hpidk : pid ≠ k := by
      intro hh
      subst hh
      rw [hl] at hlook
      obtain rfl : p = e := by injection hlook.symm
      rw [hkind] at hpkind
      cases hpkind
    refine ⟨pid, p, hpid, ?_, hpkind⟩
    rw [alLookup_alErase, if_neg hpidk]
    exact hlook

theorem alLookup_filter_children (cs : List WorkspaceEntry) (k : String)
    (l : List (String × WorkspaceEntry)) (hk : cs.all (fun c => decide (k ≠ c.id)) = true) :
    alLookup k (l.filter (fun kv => cs.all (fun c => decide (kv.1 ≠ c.id)))) = alLookup k l := by
  induction l with
  | nil => rfl
  | cons kv rest ih =>
    obtain ⟨k', v'⟩ := kv
    by_cases h2 : k' = k
    · subst h2
      have hc : (fun kv : String × WorkspaceEntry =>
          cs.all (fun c => decide (kv.1 ≠ c.id))) (k', v') = true := hk
      rw [List.filter_cons, if_pos hc]
      simp [alLookup, ih]
    · by_cases hp : (fun kv : String × WorkspaceEntry =>
          cs.all (fun c => decide (kv.1 ≠ c.id))) (k', v') = true
      · rw [List.filter_cons, if_pos hp]
        simp only [alLookup, if_neg h2]
        exact ih
      · rw [List.filter_cons, if_neg hp]
        rw [ih]
        simp only [alLookup, if_neg h2]

theorem wf_remove_cascade {ws : List (String × WorkspaceEntry)} (h : RegistryWF ws)
    {id : String} {e : WorkspaceEntry} (hl : alLookup id ws = some e)
    (hkind : e.kind = .main) :
    RegistryWF
      (((alValues ws).filter (fun w => w.parent_id = some id)).foldl
        (fun acc c => alErase c.id acc) (alErase id ws)) := by
  set cs := (alValues ws).filter (fun w => w.parent_id = some id) with hcs
  rw [foldl_alErase_eq_filter]
  have hmem : ∀ kv : String × WorkspaceEntry,
      kv ∈ (alErase id ws).filter (fun kv => cs.all (fun c => decide (kv.1 ≠ c.id))) ↔
        kv ∈ ws ∧ kv.1 ≠ id ∧ ∀ c ∈ cs, kv.1 ≠ c.id := by
    intro kv
    rw [List.mem_filter, mem_alErase]
    simp [List.all_eq_true, and_assoc]
  have hsub :
      ((alErase id ws).filter (fun kv => cs.all (fun c => decide (kv.1 ≠ c.id)))).Sublist ws := by
    refine List.Sublist.trans (List.filter_sublist _) ?_
    rw [alErase_eq_filter]
    exact List.filter_sublist _
  have hchild : ∀ c ∈ cs,
      c.kind = .worktree ∧ c.parent_id = some id ∧ alLookup c.id ws = some c := by
    intro c hc
    rw [hcs, List.mem_filter] at hc
    obtain ⟨hcv, hcp⟩ := hc
    have hcp' : c.parent_id = some id := of_decide_eq_true hcp
    obtain ⟨kv', hkv', hsnd⟩ := mem_alValues.1 hcv
    have hkey : kv'.1 = c.id := by rw [h.key_eq kv' hkv', hsnd]
    have heq : kv' = (c.id, c) := by rw [← hkey, ← hsnd]
    rw [heq] at hkv'
    have hkindc : c.kind = .worktree := by
      cases hck : c.kind
      · have hnone := h.main_no_parent (c.id, c) hkv' hck
        rw [hcp'] at hnone
        cases hnone
      · rfl
    exact ⟨hkindc, hcp', alLookup_of_mem_of_nodup h.nodup hkv'⟩
  refine ⟨nodup_keys_of_sublist hsub h.nodup, ?_, ?_, ?_⟩
  · intro kv hkv
    exact h.key_eq kv ((hmem kv).1 hkv).1
  · intro kv hkv
    exact h.main_no_parent kv ((hmem kv).1 hkv).1
  · intro kv hkv hkind'
    obtain ⟨hm, hne_id, hne_cs⟩ := (hmem kv).1 hkv
    obtain ⟨pid, p, hpid, hlook, hpkind⟩ := h.worktree_parent kv hm hkind'
    have hpid_id : pid ≠ id := by
      intro hh
      subst hh
      rw [hl] at hlook
      obtain rfl : p = e := by injection hlook.symm
      have hkvcs : kv.2 ∈ cs := by
        rw [hcs, List.mem_filter]
        exact ⟨mem_alValues.2 ⟨kv, hm, rfl⟩, decide_eq_true hpid⟩
      exact hne_cs kv.2 hkvcs (h.key_eq kv hm)
    have hpid_cs : ∀ c ∈ cs, pid ≠ c.id := by
      intro c hc hh
      obtain ⟨hck, hcp, hclook⟩ := hchild c hc
      rw [hh, hclook] at hlook
      obtain rfl : p = c := by injection hlook.symm
      rw [hck] at hpkind
      cases hpkind
    have hcond : cs.all (fun c => decide (pid ≠ c.id)) = true := by
      rw [List.all_eq_true]
      intro c hc
      exact decide_eq_true (hpid_cs c hc)
    refine ⟨pid, p, hpid, ?_, hpkind⟩
    rw [alLookup_filter_children cs pid _ hcond, alLookup_alErase, if_neg hpid_id]
    exact hlook

/-! ### Operation-level preservation -/

theorem killSession_workspaces (s : DState) (id : String) :
    (killSession s id).1.workspaces = s.workspaces := by
  unfold killSession
  cases alLookup id s.sessions <;> rfl

theorem remove_children_workspaces (env : DaemonEnv) (cs : List WorkspaceEntry) (s : DState) :
    (remove_children env cs s).state.workspaces = s.workspaces := by
  induction cs generalizing s with
  | nil => rfl
  | cons c rest ih =>
    unfold remove_children
    split_ifs <;> simp [ih, killSession_workspaces]

theorem wf_add_workspace (env : DaemonEnv) (s : DState) (newId path : String)
    (bin : Option String) (h : RegistryWF s.workspaces)
    (hfresh : alLookup newId s.workspaces = none) :
    RegistryWF (add_workspace env s newId path bin).state.workspaces := by
  unfold add_workspace
  split_ifs with hs hw
  · exact wf_insert_main h hfresh rfl rfl rfl
  · exact wf_insert_main h hfresh rfl rfl rfl
  · exact h

theorem wf_add_worktree (env : DaemonEnv) (s : DState) (newId parent_id branch : String)
    (h : RegistryWF s.workspaces) (hfresh : alLookup newId s.workspaces = none) :
    RegistryWF (add_worktree env s newId parent_id branch).state.workspaces := by
  by_cases he : (branch.trim).isEmpty = true
  · simp [add_worktree, he]
    exact h
  · cases heq : alLookup parent_id s.workspaces with
    | none =>
      simp [add_worktree, he, heq]
      exact h
    | some parent_entry =>
      have hpid : parent_id = parent_entry.id :=
        h.key_eq (parent_id, parent_entry) (alLookup_some_mem heq)
      have hp : alLookup parent_entry.id s.workspaces = some parent_entry := by
        rw [← hpid]
        exact heq
      by_cases h1 : parent_entry.kind.is_worktree = true
      · simp [add_worktree, he, heq, h1]
        exact h
      · have hpk : parent_entry.kind = .main :=
          kind_main_of_not_worktree (Bool.not_eq_true _ ▸ h1)
        by_cases h2 : env.mkdirOk = true
        · by_cases h3 : env.ignoreOk = true
          · by_cases h4 : env.gitWorktreeAddOk = true
            · by_cases h5 : env.spawnOk newId = true
              · by_cases h6 : env.writeOk = true
                · simp [add_worktree, he, heq, h1, h2, h3, h4, h5, h6]
                  exact wf_insert_worktree h hfresh rfl rfl rfl hp hpk
                · simp [add_worktree, he, heq, h1, h2, h3, h4, h5, h6]
                  exact wf_insert_worktree h hfresh rfl rfl rfl hp hpk
              · simp [add_worktree, he, heq, h1, h2, h3, h4, h5]
                exact h
            · simp [add_worktree, he, heq, h1, h2, h3, h4]
              exact h
          · simp [add_worktree, he, heq, h1, h2, h3]
            exact h
        · simp [add_worktree, he, heq, h1, h2]
          exact h

theorem connect_workspace_workspaces (env : DaemonEnv) (s : DState) (id : String) :
    (connect_workspace env s id).state.workspaces = s.workspaces := by
  unfold connect_workspace
  split
  · rfl
  · split
    · rfl
    · split_ifs <;> rfl

theorem wf_remove_workspace (env : DaemonEnv) (s : DState) (id : String)
    (h : RegistryWF s.workspaces) :
    RegistryWF (remove_workspace env s id).state.workspaces := by
  cases heq : alLookup id s.workspaces with
  | none =>
    simp [remove_workspace, heq]
    exact h
  | some entry =>
    by_cases hk : entry.kind.is_worktree = true
    · simp [remove_workspace, heq, hk]
      exact h
    · have hkind : entry.kind = .main := kind_main_of_not_worktree (Bool.not_eq_true _ ▸ hk)
      cases herr : (remove_children env
          ((alValues s.workspaces).filter (fun w => w.parent_id = some id)) s).err with
      | some e =>
        simp [remove_workspace, heq, hk, herr, remove_children_workspaces]
        exact h
      | none =>
        simp [remove_workspace, heq, hk, herr, killSession_workspaces,
          remove_children_workspaces]
        exact wf_remove_cascade h heq hkind

theorem wf_remove_worktree (env : DaemonEnv) (s : DState) (id : String)
    (h : RegistryWF s.workspaces) :
    RegistryWF (remove_worktree env s id).state.workspaces := by
  cases heq : alLookup id s.workspaces with
  | none =>
    simp [remove_worktree, heq]
    exact h
  | some entry =>
    by_cases hk : entry.kind.is_worktree = true
    · have hkind : entry.kind = .worktree := kind_worktree_of_is_worktree hk
      have hid : id = entry.id := h.key_eq (id, entry) (alLookup_some_mem heq)
      have hl2 : alLookup entry.id s.workspaces = some entry := by
        rw [← hid]
        exact heq
      cases hpar : entry.parent_id with
      | none =>
        simp [remove_worktree, heq, hk, hpar]
        exact h
      | some pid =>
        cases hpl : alLookup pid s.workspaces with
        | none =>
          simp [remove_worktree, heq, hk, hpar, hpl]
          exact h
        | some parent_entry =>
          by_cases hg : (env.pathExists entry.path && !env.gitRemoveOk entry.path) = true
          · simp [remove_worktree, heq, hk, hpar, hpl, hg, killSession_workspaces]
            exact h
          · simp [remove_worktree, heq, hk, hpar, hpl, hg, killSession_workspaces]
            exact wf_erase_worktree h hl2 hkind
    · simp [remove_worktree, heq, hk]
      exact h

theorem wf_update_workspace_settings (env : DaemonEnv) (s : DState) (id : String)
    (settings : WorkspaceSettings) (h : RegistryWF s.workspaces) :
    RegistryWF (update_workspace_settings env s id settings).state.workspaces := by
  unfold update_workspace_settings
  split
  · exact h
  · rename_i entry heq
    exact wf_update h heq rfl rfl rfl

theorem wf_update_workspace_codex_bin (env : DaemonEnv) (s : DState) (id : String)
    (bin : Option String) (h : RegistryWF s.workspaces) :
    RegistryWF (update_workspace_codex_bin env s id bin).state.workspaces := by
  unfold update_workspace_codex_bin
  split
  · exact h
  · rename_i entry heq
    exact wf_update h heq rfl rfl rfl

/-! ## Reachable daemon states -/

/-- The states reachable by the registry operations from the empty registry.
The freshness hypotheses on the add operations model the `Uuid::new_v4` ids
(the spec's "id opaque, generated once, never reused").  Note that error
outcomes are reachable states too: the model keeps every partial mutation the
source performs before an early `?` return. -/
inductive Reachable : DState → Prop
  | empty : Reachable ⟨[], []⟩
  | add_workspace_step (env : DaemonEnv) (s : DState) (newId path : String)
      (bin : Option String) (h : Reachable s)
      (hfresh : alLookup newId s.workspaces = none) :
      Reachable (add_workspace env s newId path bin).state
  | add_worktree_step (env : DaemonEnv) (s : DState) (newId parent_id branch : String)
      (h : Reachable s) (hfresh : alLookup newId s.workspaces = none) :
      Reachable (add_worktree env s newId parent_id branch).state
  | connect_workspace_step (env : DaemonEnv) (s : DState) (id : String) (h : Reachable s) :
      Reachable (connect_workspace env s id).state
  | remove_workspace_step (env : DaemonEnv) (s : DState) (id : String) (h : Reachable s) :
      Reachable (remove_workspace env s id).state
  | remove_worktree_step (env : DaemonEnv) (s : DState) (id : String) (h : Reachable s) :
      Reachable (remove_worktree env s id).state
  | update_settings_step (env : DaemonEnv) (s : DState) (id : String)
      (settings : WorkspaceSettings) (h : Reachable s) :
      Reachable (update_workspace_settings env s id settings).state
  | update_codex_bin_step (env : DaemonEnv) (s : DState) (id : String)
      (bin : Option String) (h : Reachable s) :
      Reachable (update_workspace_codex_bin env s id bin).state

theorem reachable_wf {s : DState} (h : Reachable s) : RegistryWF s.workspaces := by
  induction h with
  | empty =>
    exact ⟨List.nodup_nil, by simp, by simp, by simp⟩
  | add_workspace_step env s newId path bin h hfresh ih =>
    exact wf_add_workspace env s newId path bin ih hfresh
  | add_worktree_step env s newId parent_id branch h hfresh ih =>
    exact wf_add_worktree env s newId parent_id branch ih hfresh
  | connect_workspace_step env s id h ih =>
    rw [connect_workspace_workspaces]
    exact ih
  | remove_workspace_step env s id h ih =>
    exact wf_remove_workspace env s id ih
  | remove_worktree_step env s id h ih =>
    exact wf_remove_worktree env s id ih
  | update_settings_step env s id settings h ih =>
    exact wf_update_workspace_settings env s id settings ih
  | update_codex_bin_step env s id bin h ih =>
    exact wf_update_workspace_codex_bin env s id bin ih

/-! ## Concrete demonstration material -/

/-- An environment where every external effect succeeds and no path exists. -/
def env_all_ok : DaemonEnv :=
  { spawnOk := fun _ => true, writeOk := true, mkdirOk := true, ignoreOk := true,
    pathExists := fun _ => false, gitWorktreeAddOk := true, gitRemoveOk := fun _ => true }

/-- A registered `Main` workspace. -/
def demo_parent : WorkspaceEntry := { id := "p", name := "p", path := "/p", kind := .main }

/-- A worktree child of `demo_parent`. -/
def demo_child_a : WorkspaceEntry :=
  { id := "a", name := "a", path := "/p/.codex-worktrees/a", kind := .worktree,
    parent_id := some "p", worktree := some { branch := "a" } }

/-- A second worktree child of `demo_parent`. -/
def demo_child_b : WorkspaceEntry :=
  { id := "b", name := "b", path := "/p/.codex-worktrees/b", kind := .worktree,
    parent_id := some "p", worktree := some { branch := "b" } }

/-- A registry with one main workspace and two connected worktree children. -/
def demo_reg : DState :=
  { workspaces := [("p", demo_parent), ("a", demo_child_a), ("b", demo_child_b)],
    sessions := [("a", demo_child_a), ("b", demo_child_b)] }

/-- An environment where every path exists and removing child `a`'s worktree
fails while everything else succeeds. -/
def env_fail_a : DaemonEnv :=
  { spawnOk := fun _ => true, writeOk := true, mkdirOk := true, ignoreOk := true,
    pathExists := fun _ => true, gitWorktreeAddOk := true,
    gitRemoveOk := fun p => decide (p ≠ "/p/.codex-worktrees/a") }

/-- The state reached from the empty registry by one `add_workspace`. -/
def demo_state1 : DState := (add_workspace env_all_ok ⟨[], []⟩ "id-main" "/tmp/proj" none).state

/-- The `demo_state1` followed by an `add_worktree` under the main workspace. -/
def demo_state2 : DState := (add_worktree env_all_ok demo_state1 "id-wt" "id-main" "feature").state

/-! ## Claim theorems -/

/-- C1: for every reachable registry state — reachability closes the empty
registry under the seven operations (add_workspace, add_worktree,
connect_workspace, remove_workspace, remove_worktree,
update_workspace_settings, update_workspace_codex_bin), error outcomes and
their partial mutations included — every entry of the workspace map satisfies
kind = Worktree ⇔ parent_id is present and resolves to a registered Main
entry. -/
theorem C1_registry_invariant (s : DState) (h : Reachable s) :
    registryInvariant s.workspaces = true :=
  registryInvariant_of_wf (reachable_wf h)

/-- C1 witness: the invariant evaluates to true on the concrete state reached
by `add_workspace` then `add_worktree`. -/
theorem C1_registry_invariant_witness : registryInvariant demo_state2.workspaces = true :=
  C1_registry_invariant demo_state2
    (Reachable.add_worktree_step env_all_ok demo_state1 "id-wt" "id-main" "feature"
      (Reachable.add_workspace_step env_all_ok ⟨[], []⟩ "id-main" "/tmp/proj" none
        Reachable.empty (by decide))
      (by decide))

/-- C2: with a configured token, an unauthenticated connection answers any
non-"auth" request with "unauthorized" and stays unauthenticated; an "auth"
request with a wrong token gets "invalid token" and stays unauthenticated (so
a later request is processed by the same unauthenticated step again — retry);
a matching token gets an ok reply and the authenticated state; and from the
authenticated state every request is dispatched (never gated) and the state
never returns to unauthenticated. -/
theorem C2_auth_gate (t : String) (opResult : String → JValue → Except String JValue)
    (req : RpcRequest) :
    (req.method ≠ "auth" →
      conn_step (some t) opResult .unauthenticated req
        = (.unauthenticated, build_error_response req.id "unauthorized")) ∧
    (req.method = "auth" → (parse_auth_token req.params).getD "" ≠ t →
      conn_step (some t) opResult .unauthenticated req
        = (.unauthenticated, build_error_response req.id "invalid token")) ∧
    (req.method = "auth" → (parse_auth_token req.params).getD "" = t →
      conn_step (some t) opResult .unauthenticated req
        = (.authenticated, build_result_response req.id (.obj [("ok", .bool true)]))) ∧
    (∀ req' : RpcRequest,
      (conn_step (some t) opResult .authenticated req').1 = .authenticated ∧
      (conn_step (some t) opResult .authenticated req').2
        = (match handle_rpc_request opResult req'.method req'.params with
           | .ok v => build_result_response req'.id v
           | .error e => build_error_response req'.id e)) := by
  refine ⟨?_, ?_, ?_, ?_⟩
  · intro hm
    simp [conn_step, hm]
  · intro hm hne
    simp [conn_step, hm, Ne.symm hne]
  · intro hm heq
    simp [conn_step, hm, heq]
  · intro req'
    constructor
    · cases hd : handle_rpc_request opResult req'.method req'.params <;> simp [conn_step, hd]
    · cases hd : handle_rpc_request opResult req'.method req'.params <;> simp [conn_step, hd]

/-- C2 witness: a concrete "list_workspaces" request before authentication is
answered with "unauthorized". -/
theorem C2_auth_gate_witness :
    conn_step (some "secret") (fun _ _ => .ok .null) .unauthenticated
        ⟨some 1, "list_workspaces", .null⟩
      = (.unauthenticated, some (.error 1 "unauthorized")) :=
  (C2_auth_gate "secret" (fun _ _ => .ok .null)
    ⟨some 1, "list_workspaces", .null⟩).1 (by decide)

/-- C5: the access mode maps to the sandbox and approval policies exactly as
the spec says: "full-access" ⇒ dangerFullAccess + "never"; "read-only" ⇒
readOnly + "on-request"; absent (default "current") or any other value ⇒
workspaceWrite rooted at the workspace path with network access, +
"on-request". -/
theorem C5_sandbox_mapping (path : String) :
    send_user_message_policies (some "full-access") path
      = (.dangerFullAccess, "never") ∧
    send_user_message_policies (some "read-only") path
      = (.readOnly, "on-request") ∧
    send_user_message_policies none path
      = (.workspaceWrite [path] true, "on-request") ∧
    (∀ m : String, m ≠ "full-access" → m ≠ "read-only" →
      send_user_message_policies (some m) path
        = (.workspaceWrite [path] true, "on-request")) := by
  refine ⟨rfl, rfl, rfl, ?_⟩
  intro m h1 h2
  simp [send_user_message_policies, sandbox_policy_for, approval_policy_for, h1, h2]

/-- C5 witness: the default mode "current" yields the workspace-write sandbox
rooted at the workspace path with approval "on-request". -/
theorem C5_sandbox_mapping_witness :
    send_user_message_policies (some "current") "/w"
      = (.workspaceWrite ["/w"] true, "on-request") :=
  (C5_sandbox_mapping "/w").2.2.2 "current" (by decide) (by decide)

/-- C10: with no configured token a connection starts authenticated, and an
"auth" request is then dispatched like any RPC and answered with the error
"unknown method: auth". -/
theorem C10_no_token_auth (opResult : String → JValue → Except String JValue)
    (params : JValue) (i : Nat) :
    initial_conn_state none = .authenticated ∧
    conn_step none opResult .authenticated ⟨some i, "auth", params⟩
      = (.authenticated, some (.error i "unknown method: auth")) := by
  constructor
  · rfl
  · have hun : handle_rpc_request opResult "auth" params
        = .error ("unknown method: " ++ "auth") := by
      unfold handle_rpc_request
      rw [if_neg (by decide)]
    simp [conn_step, hun, build_error_response]

/-- C7: `connect_workspace` on an id with a live session returns success with
the state untouched and no session spawned; on an id with no session but a
registered entry (and a successful spawn) it spawns exactly one session and
inserts it. -/
theorem C7_connect_idempotent (env : DaemonEnv) (s : DState) (id : String) :
    ((alLookup id s.sessions).isSome = true →
      connect_workspace env s id
        = { state := s, killed := [], spawned := [], gitRemoved := [],
            result := .ok () }) ∧
    (alLookup id s.sessions = none → ∀ e, alLookup id s.workspaces = some e →
      env.spawnOk id = true →
      connect_workspace env s id
        = { state := { workspaces := s.workspaces, sessions := alInsert id e s.sessions },
            killed := [], spawned := [id], gitRemoved := [], result := .ok () }) := by
  constructor
  · intro hs
    simp [connect_workspace, hs]
  · intro hs e he hsp
    simp [connect_workspace, hs, he, hsp]

/-- C7 witness: connecting the already-connected worktree `a` of the demo
registry is a no-op, and connecting the disconnected main workspace `p`
spawns and inserts its session. -/
theorem C7_connect_idempotent_witness :
    connect_workspace env_all_ok demo_reg "a"
      = { state := demo_reg, killed := [], spawned := [], gitRemoved := [],
          result := .ok () } ∧
    connect_workspace env_all_ok demo_reg "p"
      = { state := { workspaces := demo_reg.workspaces,
                     sessions := alInsert "p" demo_parent demo_reg.sessions },
          killed := [], spawned := ["p"], gitRemoved := [], result := .ok () } :=
  ⟨(C7_connect_idempotent env_all_ok demo_reg "a").1 (by decide),
   (C7_connect_idempotent env_all_ok demo_reg "p").2 (by decide) demo_parent
     (by decide) (by decide)⟩

/-- C9: `remove_worktree` on a Worktree entry whose parent_id is absent or
dangling fails with "worktree parent not found" and performs no mutation at
all: both maps are unchanged, no subprocess is killed and no git removal is
attempted. -/
theorem C9_remove_worktree_orphan (env : DaemonEnv) (s : DState) (id : String)
    (entry : WorkspaceEntry) (hl : alLookup id s.workspaces = some entry)
    (hk : entry.kind.is_worktree = true)
    (horph : entry.parent_id = none ∨
      ∃ pid, entry.parent_id = some pid ∧ alLookup pid s.workspaces = none) :
    remove_worktree env s id
      = { state := s, killed := [], spawned := [], gitRemoved := [],
          result := .error "worktree parent not found" } := by
  rcases horph with hp | ⟨pid, hp, hpl⟩
  · simp [remove_worktree, hl, hk, hp]
  · simp [remove_worktree, hl, hk, hp, hpl]

/-- An orphaned worktree entry (its parent id is not registered). -/
def demo_orphan : WorkspaceEntry :=
  { id := "o", name := "o", path := "/o", kind := .worktree, parent_id := some "gone",
    worktree := some { branch := "o" } }

/-- A registry holding only the orphan, with a live session for it. -/
def demo_orphan_reg : DState :=
  { workspaces := [("o", demo_orphan)], sessions := [("o", demo_orphan)] }

/-- C9 witness: removing the orphan errors and leaves its session alive. -/
theorem C9_remove_worktree_orphan_witness :
    remove_worktree env_all_ok demo_orphan_reg "o"
      = { state := demo_orphan_reg, killed := [], spawned := [], gitRemoved := [],
          result := .error "worktree parent not found" } :=
  C9_remove_worktree_orphan env_all_ok demo_orphan_reg "o" demo_orphan
    (by decide) (by decide) (Or.inr ⟨"gone", by decide, by decide⟩)

/-- If some child whose directory exists has a failing git removal, the
child-teardown loop of `remove_workspace` ends with an error. -/
theorem remove_children_err_of_fail (env : DaemonEnv) (cs : List WorkspaceEntry) (s : DState)
    (h : ∃ c ∈ cs, env.pathExists c.path = true ∧ env.gitRemoveOk c.path = false) :
    (remove_children env cs s).err.isSome = true := by
  induction cs generalizing s with
  | nil => simp at h
  | cons c rest ih =>
    obtain ⟨c0, hc0, hpe, hge⟩ := h
    rcases List.mem_cons.1 hc0 with rfl | hm
    · by_cases h2 : env.gitRemoveOk c0.path = true
      · rw [h2] at hge
        cases hge
      · simp [remove_children, hpe, h2]
    · by_cases h1 : env.pathExists c.path = true
      · by_cases h2 : env.gitRemoveOk c.path = true
        · simp only [remove_children, h1, h2, if_true]
          exact ih _ ⟨c0, hm, hpe, hge⟩
        · simp [remove_children, h1, h2]
      · have hstep : (remove_children env (c :: rest) s).err
            = (remove_children env rest (killSession s c.id).1).err := by
          simp [remove_children, h1]
        rw [hstep]
        exact ih _ ⟨c0, hm, hpe, hge⟩

/-- C4 counterexample: in the demo registry, with child `a`'s git worktree
removal failing, `remove_workspace p` errors after attempting only `a`'s
removal: child `b`'s teardown is never attempted, its session survives, and
no entry is removed — the cascade aborts instead of continuing best-effort. -/
theorem C4_counterexample :
    (remove_workspace env_fail_a demo_reg "p").result
      = .error "failed to remove worktree /p/.codex-worktrees/a" ∧
    (remove_workspace env_fail_a demo_reg "p").gitRemoved
      = ["/p/.codex-worktrees/a"] ∧
    alLookup "b" (remove_workspace env_fail_a demo_reg "p").state.sessions
      = some demo_child_b ∧
    (remove_workspace env_fail_a demo_reg "p").state.workspaces = demo_reg.workspaces := by
  refine ⟨?_, ?_, ?_, ?_⟩ <;> decide

/-- C4 amended: when any child worktree with an existing directory has a
failing git removal, `remove_workspace` on its Main parent returns an error
and removes nothing from the workspace map — the cascade aborts at the first
failure rather than continuing. -/
theorem C4_abort_on_child_failure (env : DaemonEnv) (s : DState) (id : String)
    (entry : WorkspaceEntry) (hl : alLookup id s.workspaces = some entry)
    (hk : entry.kind.is_worktree = false)
    (hfail : ∃ c ∈ (alValues s.workspaces).filter (fun w => w.parent_id = some id),
      env.pathExists c.path = true ∧ env.gitRemoveOk c.path = false) :
    (∃ e, (remove_workspace env s id).result = .error e) ∧
    (remove_workspace env s id).state.workspaces = s.workspaces := by
  have hks : ¬ entry.kind.is_worktree = true := by
    rw [hk]
    exact Bool.false_ne_true
  have herr := remove_children_err_of_fail env
    ((alValues s.workspaces).filter (fun w => w.parent_id = some id)) s hfail
  obtain ⟨e, he⟩ := Option.isSome_iff_exists.1 herr
  constructor
  · exact ⟨e, by simp [remove_workspace, hl, hks, he]⟩
  · simp [remove_workspace, hl, hks, he, remove_children_workspaces]

/-- C4 amended witness: the demo registry with child `a` failing. -/
theorem C4_abort_on_child_failure_witness :
    (∃ e, (remove_workspace env_fail_a demo_reg "p").result = .error e) ∧
    (remove_workspace env_fail_a demo_reg "p").state.workspaces = demo_reg.workspaces :=
  C4_abort_on_child_failure env_fail_a demo_reg "p" demo_parent (by decide) (by decide)
    ⟨demo_child_a, by decide, by decide, by decide⟩

/-- C3 amended: whenever at least one of the 999 candidate paths (the base
name, then suffixes 2 … 999) does not exist, `unique_worktree_path` returns a
path that does not exist — in particular two colliding `add_worktree` calls
get distinct directories while a free candidate remains.  (On exhaustion the
function returns the existing base path; see the counterexample.) -/
theorem C3_unique_path_fresh (pe : String → Bool) (base_dir name : String)
    (h : ∃ c ∈ worktree_path_candidates base_dir name, pe c = false) :
    pe (unique_worktree_path pe base_dir name) = false := by
  by_cases hb : pe (base_dir ++ "/" ++ name) = false
  · simp [unique_worktree_path, hb]
  · have hb2 : pe (base_dir ++ "/" ++ name) = true := by
      cases hpe : pe (base_dir ++ "/" ++ name)
      · exact absurd hpe hb
      · rfl
    cases hf : (List.range' 2 998).find?
        (fun index => !(pe (base_dir ++ "/" ++ name ++ "-" ++ toString index))) with
    | some j =>
      have hj := List.find?_some hf
      simp only [Bool.not_eq_true'] at hj
      simp [unique_worktree_path, hb2, hf, hj]
    | none =>
      obtain ⟨c, hc, hcf⟩ := h
      rcases List.mem_cons.1 hc with rfl | hm
      · rw [hb2] at hcf
        cases hcf
      · obtain ⟨i, hi, rfl⟩ := List.mem_map.1 hm
        have hnone := List.find?_eq_none.1 hf i hi
        exact absurd (by rw [hcf]; rfl : (!(pe (base_dir ++ "/" ++ name ++ "-" ++ toString i)))
          = true) hnone

/-- C3 witness: on an empty directory the base candidate itself is returned
and is fresh. -/
theorem C3_unique_path_fresh_witness :
    (fun _ : String => false) (unique_worktree_path (fun _ => false) "b" "n") = false :=
  C3_unique_path_fresh (fun _ => false) "b" "n"
    ⟨"b" ++ "/" ++ "n", List.mem_cons_self _ _, rfl⟩

/-- A directory state in which every path under `b` named `n`, `n-2`, … exists
(every path whose first three characters are `b/n`). -/
def ce3_exists (p : String) : Bool := decide (p.data.take 3 = ['b', '/', 'n'])

set_option maxRecDepth 40000 in
/-- C3 counterexample: when the base name and all 998 numeric suffixes exist,
`unique_worktree_path` returns the base path even though it exists, instead of
treating suffix exhaustion as a fatal condition. -/
theorem C3_counterexample :
    unique_worktree_path ce3_exists "b" "n" = "b" ++ "/" ++ "n" ∧
    ce3_exists ("b" ++ "/" ++ "n") = true := by
  constructor
  · decide
  · decide

/-- The head surviving `dropWhile` fails the predicate. -/
theorem dropWhile_head_not {p : Char → Bool} {l : List Char} {a : Char}
    (h : (l.dropWhile p).head? = some a) : p a = false := by
  induction l with
  | nil => simp [List.dropWhile] at h
  | cons x xs ih =>
    rw [List.dropWhile_cons] at h
    by_cases hx : p x = true
    · rw [if_pos hx] at h
      exact ih h
    · rw [if_neg hx] at h
      simp only [List.head?_cons, Option.some.injEq] at h
      subst h
      exact Bool.not_eq_true _ ▸ hx

/-- The `dropWhile` keeps the last element when its result is nonempty. -/
theorem dropWhile_getLast? {p : Char → Bool} {l : List Char}
    (h : l.dropWhile p ≠ []) : (l.dropWhile p).getLast? = l.getLast? := by
  induction l with
  | nil => simp [List.dropWhile] at h
  | cons x xs ih =>
    rw [List.dropWhile_cons]
    by_cases hx : p x = true
    · rw [List.dropWhile_cons, if_pos hx] at h
      rw [if_pos hx, ih h]
      cases xs with
      | nil => simp [List.dropWhile] at h
      | cons y ys => rw [List.getLast?_cons_cons]
    · rw [if_neg hx]

/-- Every character the replacement loop emits is in the allowed class. -/
theorem sanitize_chars_allowed (l : List Char) :
    ∀ c ∈ sanitize_chars l, allowed_char c = true := by
  intro c hc
  unfold sanitize_chars at hc
  obtain ⟨c0, _, heq⟩ := List.mem_map.1 hc
  by_cases ha : allowed_char c0 = true
  · rw [if_pos ha] at heq
    rw [← heq]
    exact ha
  · rw [if_neg ha] at heq
    rw [← heq]
    decide

/-- Trimming only removes characters. -/
theorem trim_dashes_subset (l : List Char) : ∀ c ∈ trim_dashes l, c ∈ l := by
  intro c hc
  unfold trim_dashes at hc
  rw [List.mem_reverse] at hc
  have h1 := (List.dropWhile_sublist (fun c : Char => c == '-')).subset hc
  rw [List.mem_reverse] at h1
  exact (List.dropWhile_sublist (fun c : Char => c == '-')).subset h1

theorem sanitize_eq_of_empty {branch : String}
    (he : (trim_dashes (sanitize_chars branch.data)).isEmpty = true) :
    sanitize_worktree_name branch = "worktree" := by
  simp [sanitize_worktree_name, he]

theorem sanitize_eq_of_nonempty {branch : String}
    (he : ¬ (trim_dashes (sanitize_chars branch.data)).isEmpty = true) :
    sanitize_worktree_name branch = String.mk (trim_dashes (sanitize_chars branch.data)) := by
  simp [sanitize_worktree_name, he]

/-- C6: the output of `sanitize_worktree_name` is never empty, every character
of it lies in `[A-Za-z0-9._-]`, and it neither begins nor ends with `'-'`. -/
theorem C6_sanitize_spec (branch : String) :
    sanitize_worktree_name branch ≠ "" ∧
    (∀ c ∈ (sanitize_worktree_name branch).data, allowed_char c = true) ∧
    (sanitize_worktree_name branch).data.head? ≠ some '-' ∧
    (sanitize_worktree_name branch).data.getLast? ≠ some '-' := by
  by_cases he : (trim_dashes (sanitize_chars branch.data)).isEmpty = true
  · rw [sanitize_eq_of_empty he]
    refine ⟨by decide, by decide, by decide, by decide⟩
  · rw [sanitize_eq_of_nonempty he]
    have htne : trim_dashes (sanitize_chars branch.data) ≠ [] := by
      intro hh
      rw [hh] at he
      exact he rfl
    refine ⟨?_, ?_, ?_, ?_⟩
    · intro hh
      exact htne (congrArg String.data hh)
    · intro c hc
      exact sanitize_chars_allowed branch.data c
        (trim_dashes_subset (sanitize_chars branch.data) c hc)
    · intro hh
      have hh2 : ((((sanitize_chars branch.data).dropWhile (fun c => c == '-')).reverse.dropWhile
          (fun c => c == '-')).reverse).head? = some '-' := hh
      rw [List.head?_reverse] at hh2
      have hBne : (((sanitize_chars branch.data).dropWhile
          (fun c => c == '-')).reverse.dropWhile (fun c => c == '-')) ≠ [] := by
        intro hnil
        rw [hnil] at hh2
        cases hh2
      rw [dropWhile_getLast? hBne, List.getLast?_reverse] at hh2
      have := dropWhile_head_not hh2
      simp at this
    · intro hh
      have hh2 : ((((sanitize_chars branch.data).dropWhile (fun c => c == '-')).reverse.dropWhile
          (fun c => c == '-')).reverse).getLast? = some '-' := hh
      rw [List.getLast?_reverse] at hh2
      have := dropWhile_head_not hh2
      simp at this

/-! ## Ordering facts for `sort_workspaces` -/

theorem chars_le_total (a b : List Char) : chars_le a b = true ∨ chars_le b a = true := by
  induction a generalizing b with
  | nil => exact Or.inl rfl
  | cons x xs ih =>
    cases b with
    | nil => exact Or.inr rfl
    | cons y ys =>
      by_cases hxy : x = y
      · subst hxy
        rcases ih ys with h | h
        · exact Or.inl (by simp [chars_le, h])
        · exact Or.inr (by simp [chars_le, h])
      · rcases lt_trichotomy x y with hlt | heq | hgt
        · exact Or.inl (by simp [chars_le, hxy, hlt])
        · exact absurd heq hxy
        · exact Or.inr (by simp [chars_le, Ne.symm hxy, hgt])

theorem chars_le_trans {a b c : List Char} (h1 : chars_le a b = true)
    (h2 : chars_le b c = true) : chars_le a c = true := by
  induction a generalizing b c with
  | nil => rfl
  | cons x xs ih =>
    cases b with
    | nil => simp [chars_le] at h1
    | cons y ys =>
      cases c with
      | nil => simp [chars_le] at h2
      | cons z zs =>
        by_cases hxy : x = y
        · subst hxy
          by_cases hyz : x = z
          · subst hyz
            simp only [chars_le, if_pos rfl] at h1 h2 ⊢
            exact ih h1 h2
          · simp only [chars_le, if_pos rfl] at h1
            simp only [chars_le, if_neg hyz] at h2 ⊢
            exact h2
        · by_cases hyz : y = z
          · subst hyz
            simp only [chars_le, if_neg hxy] at h1 ⊢
            exact h1
          · simp only [chars_le, if_neg hxy] at h1
            simp only [chars_le, if_neg hyz] at h2
            have h1' : x < y := of_decide_eq_true h1
            have h2' : y < z := of_decide_eq_true h2
            have hxz : x < z := lt_trans h1' h2'
            simp only [chars_le, if_neg (ne_of_lt hxz)]
            exact decide_eq_true hxz

theorem string_le_total (a b : String) : string_le a b = true ∨ string_le b a = true :=
  chars_le_total a.data b.data

theorem string_le_trans {a b c : String} (h1 : string_le a b = true)
    (h2 : string_le b c = true) : string_le a c = true :=
  chars_le_trans h1 h2

theorem ws_le_total (a b : WorkspaceInfo) : ws_le a b = true ∨ ws_le b a = true := by
  unfold ws_le
  by_cases h : effective_sort_order a = effective_sort_order b
  · rw [if_pos h, if_pos h.symm]
    exact string_le_total a.name b.name
  · rw [if_neg h, if_neg (Ne.symm h)]
    rcases Nat.lt_or_ge (effective_sort_order a) (effective_sort_order b) with hlt | hge
    · exact Or.inl (decide_eq_true hlt)
    · have hgt : effective_sort_order b < effective_sort_order a :=
        lt_of_le_of_ne hge (Ne.symm h)
      exact Or.inr (decide_eq_true hgt)

theorem ws_le_trans {a b c : WorkspaceInfo} (h1 : ws_le a b = true)
    (h2 : ws_le b c = true) : ws_le a c = true := by
  unfold ws_le at h1 h2 ⊢
  by_cases hab : effective_sort_order a = effective_sort_order b <;>
    by_cases hbc : effective_sort_order b = effective_sort_order c
  · rw [if_pos hab] at h1
    rw [if_pos hbc] at h2
    rw [if_pos (hab.trans hbc)]
    exact string_le_trans h1 h2
  · rw [if_pos hab] at h1
    rw [if_neg hbc] at h2
    have h2' : effective_sort_order b < effective_sort_order c := of_decide_eq_true h2
    have hac : effective_sort_order a < effective_sort_order c := by omega
    rw [if_neg (Nat.ne_of_lt hac)]
    exact decide_eq_true hac
  · rw [if_neg hab] at h1
    rw [if_pos hbc] at h2
    have h1' : effective_sort_order a < effective_sort_order b := of_decide_eq_true h1
    have hac : effective_sort_order a < effective_sort_order c := by omega
    rw [if_neg (Nat.ne_of_lt hac)]
    exact decide_eq_true hac
  · rw [if_neg hab] at h1
    rw [if_neg hbc] at h2
    have h1' : effective_sort_order a < effective_sort_order b := of_decide_eq_true h1
    have h2' : effective_sort_order b < effective_sort_order c := of_decide_eq_true h2
    have hac : effective_sort_order a < effective_sort_order c := lt_trans h1' h2'
    rw [if_neg (Nat.ne_of_lt hac)]
    exact decide_eq_true hac

instance : IsTotal WorkspaceInfo (fun a b => ws_le a b = true) := ⟨ws_le_total⟩

instance : IsTrans WorkspaceInfo (fun a b => ws_le a b = true) := ⟨fun _ _ _ => ws_le_trans⟩

/-- C8 amended: `list_workspaces` returns exactly one entry per workspace
(a permutation of the joined map), `connected` is true exactly when a session
exists for the entry's id, and the result is sorted by the comparator of
`sort_workspaces`: ascending by `sort_order.unwrap_or(u32::MAX)` — so entries
with no sort_order sort with key 4294967295, after all smaller keys but tied
with an explicit sort_order of u32::MAX — with ties broken by name. -/
theorem C8_list_workspaces_spec (s : DState) :
    (list_workspaces s).Perm
      ((alValues s.workspaces).map
        (fun e => e.toInfo ((alLookup e.id s.sessions).isSome))) ∧
    (∀ w ∈ list_workspaces s, w.connected = (alLookup w.id s.sessions).isSome) ∧
    (list_workspaces s).Pairwise (fun a b => ws_le a b = true) := by
  refine ⟨?_, ?_, ?_⟩
  · exact List.perm_insertionSort _ _
  · intro w hw
    have hperm := List.perm_insertionSort (fun a b => ws_le a b = true)
      ((alValues s.workspaces).map (fun e => e.toInfo ((alLookup e.id s.sessions).isSome)))
    have hw2 : w ∈ (alValues s.workspaces).map
        (fun e => e.toInfo ((alLookup e.id s.sessions).isSome)) := hperm.subset hw
    obtain ⟨e, _, rfl⟩ := List.mem_map.1 hw2
    rfl
  · exact List.sorted_insertionSort _ _

/-- C8 witness: in the demo registry the theorem decides the connected flag of
the main workspace's row. -/
theorem C8_list_workspaces_spec_witness :
    (demo_parent.toInfo false).connected
      = (alLookup (demo_parent.toInfo false).id demo_reg.sessions).isSome :=
  (C8_list_workspaces_spec demo_reg).2.1 (demo_parent.toInfo false) (by decide)

/-- The spec's sort contract, as stated: an entry without a sort_order never
precedes an entry that has one (no-sort_order entries sort last). -/
def none_sorts_last (l : List WorkspaceInfo) : Prop :=
  l.Pairwise (fun a b => a.settings.sort_order = none → b.settings.sort_order = none)

/-- A main workspace with the explicit sort_order u32::MAX and name "z". -/
def ce8_z : WorkspaceEntry :=
  { id := "z", name := "z", path := "/z", kind := .main,
    settings := { sort_order := some 4294967295 } }

/-- A main workspace with no sort_order and name "a". -/
def ce8_a : WorkspaceEntry := { id := "q", name := "a", path := "/q", kind := .main }

/-- The two-workspace registry exhibiting the tie. -/
def ce8_reg : DState := { workspaces := [("z", ce8_z), ("q", ce8_a)], sessions := [] }

/-- C8 counterexample: with one entry at sort_order = 4294967295 (u32::MAX,
name "z") and one with no sort_order (name "a"), `list_workspaces` puts the
no-sort_order entry first — it ties with the sentinel and wins on name — so
"entries having no sort_order sort last" is false as stated. -/
theorem C8_counterexample :
    ¬ none_sorts_last (list_workspaces ce8_reg) ∧
    (list_workspaces ce8_reg).map (fun w => (w.name, w.settings.sort_order))
      = [("a", none), ("z", some 4294967295)] := by
  constructor
  · unfold none_sorts_last
    decide
  · decide

/-- C6 witness: the guarantees evaluated on a concrete hostile branch name. -/
theorem C6_sanitize_spec_witness :
    sanitize_worktree_name "-feat/x y-" ≠ "" ∧
    (∀ c ∈ (sanitize_worktree_name "-feat/x y-").data, allowed_char c = true) ∧
    (sanitize_worktree_name "-feat/x y-").data.head? ≠ some '-' ∧
    (sanitize_worktree_name "-feat/x y-").data.getLast? ≠ some '-' :=
  C6_sanitize_spec "-feat/x y-"

/-- C10 witness: the no-token behavior at a concrete request. -/
theorem C10_no_token_auth_witness :
    initial_conn_state none = .authenticated ∧
    conn_step none (fun _ _ => .ok .null) .authenticated ⟨some 7, "auth", .null⟩
      = (.authenticated, some (.error 7 "unknown method: auth")) :=
  C10_no_token_auth (fun _ _ => .ok .null) .null 7
